import Mathlib

/-!
Verification of the `parfun` parallel map-reduce engine against its
natural-language specification.

The development shallowly embeds the two source files of the repository:

* `parfun/partition/dataframe.py` — the dataframe partition generators
  (`df_by_row`, `df_by_group`, their deprecated aliases and
  `__validate_dfs_parameter`);
* `parafun/kernel/parallel_function.py` — the `ParallelFunction`
  construction checks and the sequential-fallback dispatch of `__call__`.

Pandas dataframes are modelled as lists of rows; `df.iloc[a:b]` becomes
`(rows.take b).drop a` and `df.shape[0]` becomes `rows.length`.  The
bidirectional generator protocol (the controller repeatedly `send`s a
requested partition size, the generator answers with
`(actual_size, payload)`) is modelled by passing the list of sizes the
controller sends, in order; the returned list is the stream of yielded
partitions.  A Python exception raised by the generator body is modelled
with `Except.error`.
-/

namespace Parfun

/-- A value passed for a `*dfs` parameter: either an actual dataframe
(modelled by its list of rows) or any other Python value, which
`__validate_dfs_parameter` must reject via its `isinstance` check. -/
inductive PdValue (α : Type) : Type
  | df (rows : List α)
  | non_df
deriving DecidableEq

/-- Model of `isinstance(df, pd.DataFrame)`. -/
def PdValue.isDataFrame {α : Type} : PdValue α → Bool
  | .df _ => true
  | .non_df => false

/-- The rows of a dataframe value (`non_df` has no rows; the source only
reads `.shape[0]` after the `isinstance` check has passed). -/
def PdValue.rows {α : Type} : PdValue α → List α
  | .df r => r
  | .non_df => []

/-- Model of `__validate_dfs_parameter` (dataframe.py lines 182-191):
rejects an empty `dfs` tuple, any non-dataframe value, and dataframes of
differing row counts. -/
def validate_dfs_parameter {α : Type} (dfs : List (PdValue α)) : Except String Unit :=
  match dfs with
  | [] => .error "missing `dfs` parameter."
  | d :: rest =>
    if (d :: rest).any (fun v => !v.isDataFrame) then
      .error "all `dfs` values should be DataFrame instances."
    else if rest.any (fun v => v.rows.length != d.rows.length) then
      .error "all DataFrames should have the same number of rows."
    else
      .ok ()

/-- Model of the inner `dfs_chunk` closure of `df_by_row` (dataframe.py
lines 52-53): `tuple(df.iloc[rng_start:rng_end] for df in dfs)`. -/
def dfs_chunk {α : Type} (dfls : List (List α)) (rng_start rng_end : Nat) : List (List α) :=
  dfls.map (fun df => (df.take rng_end).drop rng_start)

/-- Model of the yielding loop of `df_by_row` (dataframe.py lines 55-65).
`chunk_size` is the size most recently sent by the controller and `sizes`
the sizes it will send next; `range_end` is always
`range_start + chunk_size` in the source.  If the controller stops
sending sizes while input remains, the generator stays suspended and the
stream ends. -/
def df_by_row_go {α : Type} (dfls : List (List α)) (total range_start chunk_size : Nat)
    (sizes : List Nat) : List (Nat × List (List α)) :=
  if range_start + chunk_size < total then
    (chunk_size, dfs_chunk dfls range_start (range_start + chunk_size)) ::
      (match sizes with
       | [] => []
       | s :: rest => df_by_row_go dfls total (range_start + chunk_size) s rest)
  else if range_start < total then
    [(total - range_start, dfs_chunk dfls range_start total)]
  else
    []

/-- Model of `df_by_row` (dataframe.py lines 16-65): validates the input
dataframes when the generator is primed, then slices them by rows
following the sizes the controller sends. -/
def df_by_row {α : Type} (dfs : List (PdValue α)) (sizes : List Nat) :
    Except String (List (Nat × List (List α))) :=
  match validate_dfs_parameter dfs with
  | .error e => .error e
  | .ok _ =>
    match sizes with
    | [] => .ok []
    | s :: rest =>
      .ok (df_by_row_go (dfs.map PdValue.rows) (dfs.headD .non_df).rows.length 0 s rest)

/-- Model of the inner `concat_chunked_group_dfs` closure of `df_by_group`
(dataframe.py lines 111-112): per dataframe, concatenate the accumulated
group slices. -/
def concat_chunked_group {α : Type} (chunked_group : List (List (List α))) : List (List α) :=
  chunked_group.map List.flatten

/-- Model of the accumulation loop of `df_by_group` (dataframe.py lines
114-139).  `groups` is the remaining stream of zipped per-dataframe
groups, `chunked_group`/`chunked_group_size` the accumulator, `target`
the size most recently sent by the controller and `sizes` the sizes it
will send next. -/
def df_by_group_go {α : Type} (groups : List (List (List α)))
    (chunked_group : List (List (List α))) (chunked_group_size : Nat)
    (target : Nat) (sizes : List Nat) : Except String (List (Nat × List (List α))) :=
  match groups with
  | [] =>
    .ok (if 0 < chunked_group_size then [(chunked_group_size, concat_chunked_group chunked_group)] else [])
  | g :: gs =>
    match g with
    | [] => .error "tuple index out of range"
    | gfirst :: grest =>
      if grest.any (fun gdf => gdf.length != gfirst.length) then
        .error "all dataframe group sizes should be identical."
      else if target ≤ chunked_group_size + gfirst.length then
        match sizes with
        | [] =>
          .ok [(chunked_group_size + gfirst.length,
                concat_chunked_group (List.zipWith (fun a gdf => a ++ [gdf]) chunked_group g))]
        | s :: rest =>
          match df_by_group_go gs (chunked_group.map (fun _ => [])) 0 s rest with
          | .error e => .error e
          | .ok tail =>
            .ok ((chunked_group_size + gfirst.length,
                  concat_chunked_group (List.zipWith (fun a gdf => a ++ [gdf]) chunked_group g))
              :: tail)
      else
        df_by_group_go gs (List.zipWith (fun a gdf => a ++ [gdf]) chunked_group g)
          (chunked_group_size + gfirst.length) target sizes

/-- Model of Python `zip(*iterables)` over the per-dataframe group lists
(dataframe.py lines 100-102): truncates to the shortest list and returns,
for each index, the tuple of groups across dataframes. -/
def zip_groups {α : Type} (ls : List (List (List α))) : List (List (List α)) :=
  match ls with
  | [] => []
  | l0 :: rest =>
    let n := rest.foldl (fun m l => min m l.length) l0.length
    (List.range n).map (fun i => (l0 :: rest).map (fun l => l.getD i []))

/-- Model of the generator returned by `df_by_group` (dataframe.py lines
68-141).  The pandas `df.groupby(*args, **kwargs)` call is external
library code; it is abstracted by `group_fn`, which maps a dataframe to
its list of groups (`[group for _name, group in df.groupby(...)]`). -/
def df_by_group {α : Type} (group_fn : List α → List (List α))
    (dfs : List (PdValue α)) (sizes : List Nat) :
    Except String (List (Nat × List (List α))) :=
  match validate_dfs_parameter dfs with
  | .error e => .error e
  | .ok _ =>
    match sizes with
    | [] => .ok []
    | s :: rest =>
      df_by_group_go (zip_groups ((dfs.map PdValue.rows).map group_fn))
        ((dfs.map PdValue.rows).map (fun _ => [])) 0 s rest

/-- Model of the deprecated `dfs_by_row` (dataframe.py lines 144-147): it
logs a deprecation warning and returns `df_by_row(*dfs)`. -/
def dfs_by_row {α : Type} (dfs : List (PdValue α)) (sizes : List Nat) :
    Except String (List (Nat × List (List α))) :=
  df_by_row dfs sizes

/-- Model of the deprecated `partition_dfs_by_chunk` (dataframe.py lines
150-155): it logs a deprecation warning and returns `df_by_row(*dfs)`. -/
def partition_dfs_by_chunk {α : Type} (dfs : List (PdValue α)) (sizes : List Nat) :
    Except String (List (Nat × List (List α))) :=
  df_by_row dfs sizes

/-- Model of the deprecated `dfs_by_group` (dataframe.py lines 158-163):
it logs a deprecation warning and returns `df_by_group(*args, **kwargs)`. -/
def dfs_by_group {α : Type} (group_fn : List α → List (List α))
    (dfs : List (PdValue α)) (sizes : List Nat) :
    Except String (List (Nat × List (List α))) :=
  df_by_group group_fn dfs sizes

/-- Insertion of a key into a sorted key list, used to model the sorted
group order of pandas `groupby`. -/
def insert_sorted (x : Nat) : List Nat → List Nat
  | [] => [x]
  | y :: ys => if x ≤ y then x :: y :: ys else y :: insert_sorted x ys

/-- Insertion sort on keys. -/
def sort_nat (l : List Nat) : List Nat := l.foldr insert_sorted []

/-- Models pandas `DataFrame.groupby(by=<key column>)` with its default
`sort=True`, for dataframes whose rows are `(key, value)` pairs: one
group per distinct key, in ascending key order, each group holding the
rows carrying that key. -/
def groupby_fst (df : List (Nat × Nat)) : List (List (Nat × Nat)) :=
  (sort_nat (df.map Prod.fst).dedup).map (fun k => df.filter (fun r => r.fst == k))

example : df_by_row [PdValue.df [1, 2, 3, 4, 5]] [2, 2, 2] =
    .ok [(2, [[1, 2]]), (2, [[3, 4]]), (1, [[5]])] := by rfl

example : df_by_row [PdValue.df [1, 2, 3], PdValue.df [4, 5]] [2] =
    .error "all DataFrames should have the same number of rows." := by rfl

example : df_by_group groupby_fst [PdValue.df [(0, 1), (0, 2)]] [1] =
    .ok [(2, [[(0, 1), (0, 2)]])] := by rfl

/-! ### The `ParallelFunction` kernel (parafun/kernel/parallel_function.py) -/

/-- The kind of a Python function parameter, mirroring
`inspect.Parameter.kind`. -/
inductive ParameterKind : Type
  | positional_only
  | positional_or_keyword
  | keyword_only
  | var_positional
  | var_keyword
deriving DecidableEq

/-- Model of the `FunctionSignature` record used by `ParallelFunction`:
the kinds of the named parameters (`args`) and the two variadic flags. -/
structure FunctionSignature : Type where
  args : List ParameterKind
  has_var_arg : Bool
  has_var_kwarg : Bool
deriving DecidableEq

/-- Modelled from the spec: `FunctionSignature.from_function` lives in
`parafun.kernel.function_signature`, which is not part of the sources.
Per the spec (section 3, "FunctionSignature") the signature records the
ordered parameters with their kinds and the flags `has_var_positional`
and `has_var_named`; the input is the kind list of the target function's
declared parameters. -/
def FunctionSignature.from_function (params : List ParameterKind) : FunctionSignature :=
  { args := params.filter
      (fun k => (k != ParameterKind.var_positional) && (k != ParameterKind.var_keyword)),
    has_var_arg := params.contains ParameterKind.var_positional,
    has_var_kwarg := params.contains ParameterKind.var_keyword }

/-- A value passed for `initial_partition_size` or `fixed_partition_size`:
an integer, a callable, or some other (invalid) Python value. -/
inductive SizeArg : Type
  | int (n : Int)
  | callable
  | invalid
deriving DecidableEq

/-- Model of the attrs validator `_partition_size_validator`
(parallel_function.py lines 97-101): the value must be `None`, an
integer or a callable. -/
def size_arg_valid : Option SizeArg → Bool
  | none => true
  | some (.int _) => true
  | some .callable => true
  | some .invalid => false

/-- Model of `_legacy_partition_size` (parallel_function.py lines
202-221): a non-callable size value is returned unchanged, a callable is
wrapped into the `legacy_partition_size` closure (still a callable). -/
def legacy_partition_size : Option SizeArg → Option SizeArg
  | some .callable => some .callable
  | v => v

/-- Model of the `LinearRegessionEstimator` partition-size estimator
state: the timing observations it has accumulated. -/
structure LinearRegessionEstimator : Type where
  observations : List (Nat × Nat)
deriving DecidableEq

/-- Model of the `ParallelFunction` attrs state that the verified claims
depend on. -/
structure ParallelFunction : Type where
  initial_partition_size : Option SizeArg
  fixed_partition_size : Option SizeArg
  partition_size_estimator : Option LinearRegessionEstimator
  function_signature : FunctionSignature
deriving DecidableEq

/-- The constructor arguments of `ParallelFunction.__init__`
(parallel_function.py lines 51-60); `split`, `partition_on` and
`partition_with` are tracked only by whether they were supplied, and the
target function by its parameter kinds. -/
structure InitArgs : Type where
  has_split : Bool
  has_partition_on : Bool
  has_partition_with : Bool
  initial_partition_size : Option SizeArg
  fixed_partition_size : Option SizeArg
  function_params : List ParameterKind
deriving DecidableEq

/-- Model of `ParallelFunction._validate_function_signature`
(parallel_function.py lines 103-108): the check returns immediately when
the function has a variadic positional or keyword parameter, and only
otherwise rejects positional-only parameters. -/
def ParallelFunction.validate_function_signature (sig : FunctionSignature) :
    Except String Unit :=
  if sig.has_var_arg || sig.has_var_kwarg then
    .ok ()
  else if sig.args.any (fun k => k == ParameterKind.positional_only) then
    .error "parafun toolkit does not support positional only parameters yet."
  else
    .ok ()

/-- The effective `initial_partition_size` attribute after the legacy
`partition_on` rewrite of `__init__` (parallel_function.py lines 73-77). -/
def InitArgs.initial_size (a : InitArgs) : Option SizeArg :=
  if a.has_partition_on then legacy_partition_size a.initial_partition_size
  else a.initial_partition_size

/-- The effective `fixed_partition_size` attribute after the legacy
`partition_on` rewrite of `__init__` (parallel_function.py lines 73-77). -/
def InitArgs.fixed_size (a : InitArgs) : Option SizeArg :=
  if a.has_partition_on then legacy_partition_size a.fixed_partition_size
  else a.fixed_partition_size

/-- Model of `ParallelFunction.__init__` (parallel_function.py lines
51-95): the legacy-API checks and rewrites, the attrs size validators,
the mutual-exclusion check on the two size options, the creation of the
partition-size estimator (once, at construction, and only when
`fixed_partition_size` is unset), and the signature validation.  A
`ValueError` raised anywhere during construction is an `Except.error`. -/
def ParallelFunction.init (a : InitArgs) : Except String ParallelFunction :=
  if a.has_partition_on ≠ a.has_partition_with then
    .error "`partition_on` and `partition_with` should be both simultaneously set or None."
  else if a.has_partition_on && a.has_split then
    .error "`split` cannot be set with `partition_on` or `partition_with`."
  else if ¬ size_arg_valid a.initial_size then
    .error "`initial_partition_size` should be either an integer, a callable or `None`."
  else if ¬ size_arg_valid a.fixed_size then
    .error "`fixed_partition_size` should be either an integer, a callable or `None`."
  else if a.initial_size.isSome && a.fixed_size.isSome then
    .error "`initial_partition_size` and `fixed_partition_size` cannot be set simultaneously."
  else
    match ParallelFunction.validate_function_signature
        (FunctionSignature.from_function a.function_params) with
    | .error e => .error e
    | .ok _ =>
      .ok { initial_partition_size := a.initial_size,
            fixed_partition_size := a.fixed_size,
            partition_size_estimator :=
              if a.fixed_size.isNone then some { observations := [] } else none,
            function_signature := FunctionSignature.from_function a.function_params }

/-- Model of a backend engine, reduced to the capability that
`ParallelFunction.__call__` queries: `allows_nested_tasks()`. -/
structure BackendEngine : Type where
  allows_nested_tasks : Bool
deriving DecidableEq

/-- Model of the dispatch at the top of `ParallelFunction.__call__`
(parallel_function.py lines 110-124).  `function` is the bare user
function, `parallel_path` stands for the whole parallel pipeline (steps
1-6 of `__call__`, whose backend machinery is imported from modules
outside the sources), `current_backend` the result of
`get_parallel_backend()` and `nested` the result of
`is_nested_parallelism()` (a call-stack inspection, taken as an input of
the model). -/
def ParallelFunction.call_dispatch {I O : Type} (function : I → O) (parallel_path : I → O)
    (current_backend : Option BackendEngine) (nested : Bool) (args : I) : O :=
  let allows_nested_tasks :=
    match current_backend with
    | none => false
    | some b => b.allows_nested_tasks
  if nested && !allows_nested_tasks then
    function args
  else
    match current_backend with
    | none => function args
    | some _ => parallel_path args

/-- Modelled from the spec: the estimator-observation step of one
parallel invocation.  `timed_partition` and `timed_combine_with`
(parafun.profiler.functions) are not part of the sources; per the spec
(sections 4.2 and 4.3) each completed task makes the estimator stored on
the `ParallelFunction` instance observe an `(actual_size, task_duration)`
sample.  `samples` are the observations produced during the invocation;
when no estimator exists (`fixed_partition_size` set) nothing is
recorded. -/
def ParallelFunction.call_estimator_update (pf : ParallelFunction)
    (samples : List (Nat × Nat)) : ParallelFunction :=
  match pf.partition_size_estimator with
  | none => pf
  | some est =>
    { pf with
      partition_size_estimator :=
        some (LinearRegessionEstimator.mk (est.observations ++ samples)) }

/-! ## Theorems -/

/-- The legacy size-option rewrite never turns a supplied size option into
`None` or vice versa. -/
theorem legacy_partition_size_isSome (o : Option SizeArg) :
    (legacy_partition_size o).isSome = o.isSome := by
  cases o with
  | none => rfl
  | some v => cases v <;> rfl

/-- The legacy rewrite of `initial_partition_size` preserves whether the
option was supplied. -/
theorem InitArgs.initial_size_isSome (a : InitArgs) :
    a.initial_size.isSome = a.initial_partition_size.isSome := by
  unfold InitArgs.initial_size
  cases h : a.has_partition_on <;> simp [legacy_partition_size_isSome]

/-- The legacy rewrite of `fixed_partition_size` preserves whether the
option was supplied. -/
theorem InitArgs.fixed_size_isSome (a : InitArgs) :
    a.fixed_size.isSome = a.fixed_partition_size.isSome := by
  unfold InitArgs.fixed_size
  cases h : a.has_partition_on <;> simp [legacy_partition_size_isSome]

/-- C5: when the ambient backend is `None`, `ParallelFunction.__call__`
returns exactly the bare user function's result on the same arguments,
for any nesting state and whatever the parallel pipeline would compute. -/
theorem c5_no_backend_sequential_fallback {I O : Type} (function parallel_path : I → O)
    (nested : Bool) (args : I) :
    ParallelFunction.call_dispatch function parallel_path none nested args = function args := by
  unfold ParallelFunction.call_dispatch
  cases nested <;> simp

/-- C6: when the call stack already holds an in-flight task of the engine
(`is_nested_parallelism()` is true) and the backend does not allow nested
tasks, `__call__` returns the bare user function's result; the result does
not depend on the parallel pipeline, so nothing is submitted to the
backend. -/
theorem c6_nested_no_nesting_sequential {I O : Type} (function parallel_path : I → O)
    (b : BackendEngine) (args : I) (hnb : b.allows_nested_tasks = false) :
    ParallelFunction.call_dispatch function parallel_path (some b) true args = function args := by
  unfold ParallelFunction.call_dispatch
  simp [hnb]

/-- Witness for C6 at a concrete input: a non-nesting backend, a nested
call, the successor function; the call returns `5 + 1`, not the parallel
pipeline's `99`. -/
theorem c6_nested_no_nesting_sequential_witness :
    ParallelFunction.call_dispatch (fun n : Nat => n + 1) (fun _ => 99)
      (some (BackendEngine.mk false)) true 5 = 6 :=
  c6_nested_no_nesting_sequential (fun n : Nat => n + 1) (fun _ => 99)
    (BackendEngine.mk false) 5 rfl

/-- C8: constructing a `ParallelFunction` with both
`initial_partition_size` and `fixed_partition_size` supplied raises a
`ValueError` at construction, whatever the two values and the rest of the
configuration are. -/
theorem c8_mutually_exclusive_size_options (a : InitArgs)
    (hinit : a.initial_partition_size.isSome = true)
    (hfixed : a.fixed_partition_size.isSome = true) :
    (ParallelFunction.init a).toOption = none := by
  have hboth : (a.initial_size.isSome && a.fixed_size.isSome) = true := by
    rw [InitArgs.initial_size_isSome, InitArgs.fixed_size_isSome, hinit, hfixed]
    rfl
  unfold ParallelFunction.init
  split_ifs <;> rfl

/-- Witness for C8: the spec scenario `initial_partition_size=10,
fixed_partition_size=20` errors at construction. -/
theorem c8_mutually_exclusive_size_options_witness :
    (ParallelFunction.init
      { has_split := true, has_partition_on := false, has_partition_with := false,
        initial_partition_size := some (SizeArg.int 10),
        fixed_partition_size := some (SizeArg.int 20),
        function_params := [ParameterKind.positional_or_keyword] }).toOption = none :=
  c8_mutually_exclusive_size_options
    { has_split := true, has_partition_on := false, has_partition_with := false,
      initial_partition_size := some (SizeArg.int 10),
      fixed_partition_size := some (SizeArg.int 20),
      function_params := [ParameterKind.positional_or_keyword] }
    rfl rfl

/-- Counterexample to C3 as stated: a function declaring a
positional-only parameter and a variadic positional parameter is accepted
by the constructor, because `_validate_function_signature` returns before
the positional-only check whenever `has_var_arg` or `has_var_kwarg` is
set. -/
theorem c3_counterexample :
    (ParallelFunction.init
        { has_split := true, has_partition_on := false, has_partition_with := false,
          initial_partition_size := none, fixed_partition_size := none,
          function_params :=
            [ParameterKind.positional_only, ParameterKind.var_positional] }).toOption.isSome
        = true
      ∧ [ParameterKind.positional_only,
          ParameterKind.var_positional].contains ParameterKind.positional_only = true := by
  constructor
  · rfl
  · rfl

/-- C3 (amended): constructing a `ParallelFunction` over a function that
declares a positional-only parameter errors at construction, provided the
function declares no variadic positional or keyword parameter (otherwise
the signature check is skipped). -/
theorem c3_positional_only_rejected (a : InitArgs)
    (hpos : ParameterKind.positional_only ∈ a.function_params)
    (hva : ParameterKind.var_positional ∉ a.function_params)
    (hvk : ParameterKind.var_keyword ∉ a.function_params) :
    (ParallelFunction.init a).toOption = none := by
  have hval : ParallelFunction.validate_function_signature
      (FunctionSignature.from_function a.function_params)
      = .error "parafun toolkit does not support positional only parameters yet." := by
    unfold ParallelFunction.validate_function_signature FunctionSignature.from_function
    have hva2 : a.function_params.contains ParameterKind.var_positional = false := by
      simpa using hva
    have hvk2 : a.function_params.contains ParameterKind.var_keyword = false := by
      simpa using hvk
    rw [if_neg, if_pos]
    · simp only [List.any_eq_true, List.mem_filter]
      exact ⟨ParameterKind.positional_only, ⟨hpos, by decide⟩, by decide⟩
    · simp only [hva2, hvk2, Bool.or_self, Bool.false_eq_true, not_false_eq_true]
  unfold ParallelFunction.init
  split_ifs <;> first | rfl | (rw [hval]; rfl)

/-- Witness for the amended C3: a two-parameter function whose first
parameter is positional-only and whose second is an ordinary parameter is
rejected at construction. -/
theorem c3_positional_only_rejected_witness :
    (ParallelFunction.init
      { has_split := true, has_partition_on := false, has_partition_with := false,
        initial_partition_size := none, fixed_partition_size := none,
        function_params :=
          [ParameterKind.positional_only,
            ParameterKind.positional_or_keyword] }).toOption = none :=
  c3_positional_only_rejected
    { has_split := true, has_partition_on := false, has_partition_with := false,
      initial_partition_size := none, fixed_partition_size := none,
      function_params :=
        [ParameterKind.positional_only, ParameterKind.positional_or_keyword] }
    (by decide) (by decide) (by decide)

/-- Counterexample to C2 as stated: after one invocation that made the
estimator observe the sample `(3, 10)`, the estimator stored on the
instance — the one the next invocation of `__call__` will use — is not a
fresh factory estimator: it still holds the observation. -/
theorem c2_counterexample :
    (ParallelFunction.init
        { has_split := true, has_partition_on := false, has_partition_with := false,
          initial_partition_size := none, fixed_partition_size := none,
          function_params := [ParameterKind.positional_or_keyword] }).toOption.map
        (fun pf =>
          (ParallelFunction.call_estimator_update pf [(3, 10)]).partition_size_estimator)
      = some (some (LinearRegessionEstimator.mk [(3, 10)]))
    ∧ LinearRegessionEstimator.mk [(3, 10)] ≠ LinearRegessionEstimator.mk [] := by
  constructor
  · rfl
  · decide

/-- C2 (amended): when `fixed_partition_size` is unset the estimator is
created exactly once, at construction, and every invocation reuses the
instance estimator, appending its observations to the carried-over state;
no per-invocation fresh estimator exists. -/
theorem c2_estimator_created_once_and_shared :
    (∀ (a : InitArgs) (pf : ParallelFunction),
        ParallelFunction.init a = .ok pf →
        pf.fixed_partition_size = none →
        pf.partition_size_estimator = some (LinearRegessionEstimator.mk []))
    ∧ (∀ (pf : ParallelFunction) (est : LinearRegessionEstimator)
          (samples : List (Nat × Nat)),
        pf.partition_size_estimator = some est →
        (ParallelFunction.call_estimator_update pf samples).partition_size_estimator
          = some (LinearRegessionEstimator.mk (est.observations ++ samples))) := by
  constructor
  · intro a pf hinit hfix
    unfold ParallelFunction.init at hinit
    split_ifs at hinit <;>
      first
      | exact absurd hinit (by simp)
      | (split at hinit
         · exact absurd hinit (by simp)
         · rw [Except.ok.injEq] at hinit
           subst hinit
           simp_all)
  · intro pf est samples hest
    unfold ParallelFunction.call_estimator_update
    rw [hest]

/-- Witness for the amended C2: construction yields the fresh estimator,
and an invocation observing `(3, 10)` then one observing `(4, 20)`
accumulates both samples on the shared estimator. -/
theorem c2_estimator_created_once_and_shared_witness :
    ParallelFunction.partition_size_estimator
        { initial_partition_size := none, fixed_partition_size := none,
          partition_size_estimator := some (LinearRegessionEstimator.mk []),
          function_signature :=
            { args := [ParameterKind.positional_or_keyword],
              has_var_arg := false, has_var_kwarg := false } }
        = some (LinearRegessionEstimator.mk [])
    ∧ (ParallelFunction.call_estimator_update
          { initial_partition_size := none, fixed_partition_size := none,
            partition_size_estimator := some (LinearRegessionEstimator.mk [(3, 10)]),
            function_signature :=
              { args := [ParameterKind.positional_or_keyword],
                has_var_arg := false, has_var_kwarg := false } }
          [(4, 20)]).partition_size_estimator
        = some (LinearRegessionEstimator.mk [(3, 10), (4, 20)]) :=
  ⟨c2_estimator_created_once_and_shared.1
      { has_split := true, has_partition_on := false, has_partition_with := false,
        initial_partition_size := none, fixed_partition_size := none,
        function_params := [ParameterKind.positional_or_keyword] }
      _ rfl rfl,
    c2_estimator_created_once_and_shared.2 _ (LinearRegessionEstimator.mk [(3, 10)])
      [(4, 20)] rfl⟩

/-- Glueing a slice with the remaining drop: removing the first `a`
elements of the length-`b` prefix and appending everything after index
`b` recovers everything after index `a`. -/
theorem take_drop_glue {α : Type} (m : List α) (a b : Nat) (hab : a ≤ b) :
    (m.take b).drop a ++ m.drop b = m.drop a := by
  have h1 : m.drop b = (m.drop a).drop (b - a) := by
    rw [List.drop_drop]
    congr 1
    omega
  rw [List.drop_take, h1, List.take_append_drop]

/-- Two adjacent row slices of the same list concatenate to the enclosing
slice. -/
theorem slice_append {α : Type} (l : List α) (a b c : Nat) (hab : a ≤ b) (hbc : b ≤ c) :
    (l.take b).drop a ++ (l.take c).drop b = (l.take c).drop a := by
  have h : l.take b = (l.take c).take b := by
    rw [List.take_take, Nat.min_eq_left hbc]
  rw [h]
  exact take_drop_glue (l.take c) a b hab

/-- The `j`-th component of a `dfs_chunk` payload is the corresponding
slice of the `j`-th dataframe. -/
theorem dfs_chunk_getD {α : Type} (dfls : List (List α)) (a b j : Nat)
    (hj : j < dfls.length) :
    (dfs_chunk dfls a b).getD j [] = ((dfls.getD j []).take b).drop a := by
  unfold dfs_chunk
  rw [List.getD_eq_getElem?_getD, List.getElem?_map, List.getElem?_eq_getElem hj,
    List.getD_eq_getElem?_getD, List.getElem?_eq_getElem hj]
  rfl

/-- The `j`-th component of a `dfs_chunk` payload, in `getElem?` form. -/
theorem dfs_chunk_getElem {α : Type} (dfls : List (List α)) (a b j : Nat)
    (hj : j < dfls.length) :
    (dfs_chunk dfls a b)[j]?.getD [] = ((dfls[j]?.getD []).take b).drop a := by
  unfold dfs_chunk
  rw [List.getElem?_map, List.getElem?_eq_getElem hj]
  rfl

/-- The `j`-th row list of the mapped dataframes. -/
theorem map_rows_getD {α : Type} (dfs : List (PdValue α)) (j : Nat) (hj : j < dfs.length) :
    (dfs.map PdValue.rows).getD j [] = (dfs.getD j PdValue.non_df).rows := by
  rw [List.getD_eq_getElem?_getD, List.getElem?_map, List.getElem?_eq_getElem hj,
    List.getD_eq_getElem?_getD, List.getElem?_eq_getElem hj]
  rfl

/-- Driving the `df_by_row` loop with positive sizes, enough of them to
exhaust the input, delivers actual sizes summing to the remaining row
count. -/
theorem df_by_row_go_sum {α : Type} (dfls : List (List α)) (total : Nat)
    (sizes : List Nat) :
    ∀ (range_start chunk_size : Nat), 1 ≤ chunk_size → (∀ s ∈ sizes, 1 ≤ s) →
    total - (range_start + chunk_size) ≤ sizes.length →
    ((df_by_row_go dfls total range_start chunk_size sizes).map Prod.fst).sum
      = total - range_start := by
  induction sizes with
  | nil =>
    intro range_start chunk_size hc hs hlen
    unfold df_by_row_go
    split_ifs with h1 h2
    · exfalso
      simp only [List.length_nil] at hlen
      omega
    · simp
    · simp
      omega
  | cons s rest ih =>
    intro range_start chunk_size hc hs hlen
    unfold df_by_row_go
    split_ifs with h1 h2
    · simp only [List.map_cons, List.sum_cons]
      rw [ih (range_start + chunk_size) s (hs s (List.mem_cons_self s rest))
        (fun x hx => hs x (List.mem_cons_of_mem s hx))
        (by
          have hs1 := hs s (List.mem_cons_self s rest)
          simp only [List.length_cons] at hlen
          omega)]
      omega
    · simp
    · simp
      omega

/-- Driving the `df_by_row` loop with positive sizes, enough of them to
exhaust the input, delivers payload slices that concatenate, per
dataframe, to the rows not yet emitted. -/
theorem df_by_row_go_flatten {α : Type} (dfls : List (List α)) (total j : Nat)
    (hj : j < dfls.length) (sizes : List Nat) :
    ∀ (range_start chunk_size : Nat), 1 ≤ chunk_size → (∀ s ∈ sizes, 1 ≤ s) →
    total - (range_start + chunk_size) ≤ sizes.length →
    ((df_by_row_go dfls total range_start chunk_size sizes).map
        (fun p => p.2.getD j [])).flatten
      = ((dfls.getD j []).take total).drop range_start := by
  induction sizes with
  | nil =>
    intro range_start chunk_size hc hs hlen
    unfold df_by_row_go
    split_ifs with h1 h2
    · exfalso
      simp only [List.length_nil] at hlen
      omega
    · simp [dfs_chunk_getElem dfls range_start total j hj]
    · simp
      omega
  | cons s rest ih =>
    intro range_start chunk_size hc hs hlen
    unfold df_by_row_go
    split_ifs with h1 h2
    · have hrec := ih (range_start + chunk_size) s (hs s (List.mem_cons_self s rest))
        (fun x hx => hs x (List.mem_cons_of_mem s hx))
        (by
          have hs1 := hs s (List.mem_cons_self s rest)
          simp only [List.length_cons] at hlen
          omega)
      simp only [List.map_cons, List.flatten_cons, hrec,
        dfs_chunk_getD dfls range_start (range_start + chunk_size) j hj]
      exact slice_append (dfls.getD j []) range_start (range_start + chunk_size) total
        (by omega) (by omega)
    · simp [dfs_chunk_getElem dfls range_start total j hj]
    · simp
      omega

/-- Driving the `df_by_row` loop with positive sizes yields partitions
whose actual size is at least 1 and at most the size requested for that
partition (`chunk_size` answers the size already sent, `sizes` the ones
sent next). -/
theorem df_by_row_go_bounds {α : Type} (dfls : List (List α)) (total : Nat)
    (sizes : List Nat) :
    ∀ (range_start chunk_size i : Nat), 1 ≤ chunk_size → (∀ s ∈ sizes, 1 ≤ s) →
    i < (df_by_row_go dfls total range_start chunk_size sizes).length →
    1 ≤ ((df_by_row_go dfls total range_start chunk_size sizes).getD i (0, [])).1
    ∧ ((df_by_row_go dfls total range_start chunk_size sizes).getD i (0, [])).1
        ≤ (chunk_size :: sizes).getD i 0 := by
  induction sizes with
  | nil =>
    intro range_start chunk_size i hc hs hi
    unfold df_by_row_go at hi ⊢
    split_ifs at hi ⊢ with h1 h2
    · cases i with
      | zero => simpa using hc
      | succ n => simp at hi
    · cases i with
      | zero =>
        simp only [List.getD_cons_zero]
        omega
      | succ n => simp at hi
    · simp at hi
  | cons s rest ih =>
    intro range_start chunk_size i hc hs hi
    unfold df_by_row_go at hi ⊢
    split_ifs at hi ⊢ with h1 h2
    · cases i with
      | zero => simpa using hc
      | succ n =>
        simp only [List.getD_cons_succ]
        simp only [List.length_cons] at hi
        exact ih (range_start + chunk_size) s n (hs s (List.mem_cons_self s rest))
          (fun x hx => hs x (List.mem_cons_of_mem s hx)) (by omega)
    · cases i with
      | zero =>
        simp only [List.getD_cons_zero]
        omega
      | succ n => simp at hi
    · simp at hi

/-- When every size sent is the same `k`, every partition yielded by the
`df_by_row` loop other than the final one has actual size exactly `k`. -/
theorem df_by_row_go_fixed {α : Type} (dfls : List (List α)) (total k : Nat)
    (sizes : List Nat) :
    ∀ (range_start chunk_size i : Nat), chunk_size = k → (∀ s ∈ sizes, s = k) →
    i + 1 < (df_by_row_go dfls total range_start chunk_size sizes).length →
    ((df_by_row_go dfls total range_start chunk_size sizes).getD i (0, [])).1 = k := by
  induction sizes with
  | nil =>
    intro range_start chunk_size i hc hs hi
    unfold df_by_row_go at hi ⊢
    split_ifs at hi ⊢ with h1 h2
    · simp at hi
    · simp at hi
    · simp at hi
  | cons s rest ih =>
    intro range_start chunk_size i hc hs hi
    unfold df_by_row_go at hi ⊢
    split_ifs at hi ⊢ with h1 h2
    · cases i with
      | zero => simpa using hc
      | succ n =>
        simp only [List.getD_cons_succ]
        simp only [List.length_cons] at hi
        exact ih (range_start + chunk_size) s n (hs s (List.mem_cons_self s rest))
          (fun x hx => hs x (List.mem_cons_of_mem s hx)) (by omega)
    · simp at hi
    · simp at hi

/-- When every size sent is at most `k`, every partition yielded by the
`df_by_row` loop has actual size at most `k`. -/
theorem df_by_row_go_le {α : Type} (dfls : List (List α)) (total k : Nat)
    (sizes : List Nat) :
    ∀ (range_start chunk_size : Nat), chunk_size ≤ k → (∀ s ∈ sizes, s ≤ k) →
    ∀ p ∈ df_by_row_go dfls total range_start chunk_size sizes, p.1 ≤ k := by
  induction sizes with
  | nil =>
    intro range_start chunk_size hc hs p hp
    unfold df_by_row_go at hp
    split_ifs at hp with h1 h2
    · rcases List.mem_cons.mp hp with hh | ht
      · subst hh
        exact hc
      · simp at ht
    · simp only [List.mem_singleton] at hp
      subst hp
      simp only
      omega
    · simp at hp
  | cons s rest ih =>
    intro range_start chunk_size hc hs p hp
    unfold df_by_row_go at hp
    split_ifs at hp with h1 h2
    · rcases List.mem_cons.mp hp with hh | ht
      · subst hh
        exact hc
      · exact ih (range_start + chunk_size) s (hs s (List.mem_cons_self s rest))
          (fun x hx => hs x (List.mem_cons_of_mem s hx)) p ht
    · simp only [List.mem_singleton] at hp
      subst hp
      simp only
      omega
    · simp at hp

/-- When the validation preconditions hold — at least one value, all of
them dataframes, all with `n` rows — `__validate_dfs_parameter`
succeeds. -/
theorem validate_dfs_parameter_ok {α : Type} (d : PdValue α) (rest : List (PdValue α))
    (n : Nat) (hdf : ∀ x ∈ d :: rest, x.isDataFrame = true)
    (hrows : ∀ x ∈ d :: rest, x.rows.length = n) :
    validate_dfs_parameter (d :: rest) = .ok () := by
  unfold validate_dfs_parameter
  dsimp only
  have h1 : ((d :: rest).any (fun v => !v.isDataFrame)) = false := by
    rw [List.any_eq_false]
    intro v hv
    rw [hdf v hv]
    decide
  have h2 : (rest.any (fun v => v.rows.length != d.rows.length)) = false := by
    rw [List.any_eq_false]
    intro v hv
    rw [hrows v (List.mem_cons_of_mem d hv), hrows d (List.mem_cons_self d rest)]
    simp
  rw [h1, h2]
  rfl

/-- An in-range `getD` is a member of the list. -/
theorem getD_mem {α : Type} (l : List (PdValue α)) (j : Nat) (hj : j < l.length) :
    l.getD j PdValue.non_df ∈ l := by
  have h : l.getD j PdValue.non_df = l[j] := by
    rw [List.getD_eq_getElem?_getD, List.getElem?_eq_getElem hj]
    rfl
  rw [h]
  exact List.getElem_mem hj

/-- When every requested size is positive, every partition yielded by the
`df_by_group` accumulation loop has a positive actual size (the flush of
the final partial chunk is guarded by `chunked_group_size > 0`, and a
yield fires only once the accumulated size reached the positive
target). -/
theorem df_by_group_go_pos {α : Type} (groups : List (List (List α))) :
    ∀ (chunked_group : List (List (List α))) (chunked_group_size target : Nat)
      (sizes : List Nat) (res : List (Nat × List (List α))),
      1 ≤ target → (∀ s ∈ sizes, 1 ≤ s) →
      df_by_group_go groups chunked_group chunked_group_size target sizes = .ok res →
      ∀ p ∈ res, 1 ≤ p.1 := by
  induction groups with
  | nil =>
    intro chunked_group chunked_group_size target sizes res ht hs h p hp
    unfold df_by_group_go at h
    rw [Except.ok.injEq] at h
    subst h
    split_ifs at hp with h1
    · simp only [List.mem_singleton] at hp
      subst hp
      simpa using h1
    · simp at hp
  | cons g gs ih =>
    intro chunked_group chunked_group_size target sizes res ht hs h p hp
    unfold df_by_group_go at h
    cases g with
    | nil => exact absurd h (by simp)
    | cons gfirst grest =>
      dsimp only at h
      by_cases hbad : (grest.any fun gdf => gdf.length != gfirst.length) = true
      · rw [if_pos hbad] at h
        exact absurd h (by simp)
      · rw [if_neg hbad] at h
        by_cases hyield : target ≤ chunked_group_size + gfirst.length
        · rw [if_pos hyield] at h
          cases sizes with
          | nil =>
            dsimp only at h
            rw [Except.ok.injEq] at h
            subst h
            simp only [List.mem_singleton] at hp
            subst hp
            simp only
            omega
          | cons s rest =>
            dsimp only at h
            cases hrec : df_by_group_go gs (chunked_group.map (fun _ => [])) 0 s rest with
            | error e =>
              rw [hrec] at h
              exact absurd h (by simp)
            | ok tail =>
              rw [hrec] at h
              rw [Except.ok.injEq] at h
              subst h
              rcases List.mem_cons.mp hp with hh | htail
              · subst hh
                simp only
                omega
              · exact ih (chunked_group.map (fun _ => [])) 0 s rest tail
                  (hs s (List.mem_cons_self s rest))
                  (fun x hx => hs x (List.mem_cons_of_mem s hx)) hrec p htail
        · rw [if_neg hyield] at h
          exact ih (List.zipWith (fun a gdf => a ++ [gdf]) chunked_group (gfirst :: grest))
            (chunked_group_size + gfirst.length) target sizes res ht hs h p hp

/-- Counterexample to C1 as stated: `df_by_group` can yield a partition
whose actual size exceeds the requested size.  Grouping the dataframe
`[(0, 1), (0, 2)]` by its key column gives one group of two rows; with
requested size 1 the accumulated chunk reaches size 2 before the yield
check fires, so the partition is yielded with `actual_size = 2 > 1`. -/
theorem c1_counterexample :
    df_by_group groupby_fst [PdValue.df [(0, 1), (0, 2)]] [1]
        = .ok [(2, [[(0, 1), (0, 2)]])]
    ∧ ¬ (2 ≤ 1) :=
  ⟨rfl, by decide⟩

/-- C1 (amended): for every sequence of positive requested sizes, every
partition yielded by `df_by_row` has an actual size of at least 1 and at
most the size requested for it, and every partition yielded by a
`df_by_group` generator has an actual size of at least 1 (its actual size
may exceed the requested size when a single group is larger than the
requested size). -/
theorem c1_partition_size_bounds {α : Type} :
    (∀ (dfs : List (PdValue α)) (sizes : List Nat) (parts : List (Nat × List (List α))),
        (∀ s ∈ sizes, 1 ≤ s) → df_by_row dfs sizes = .ok parts →
        ∀ i, i < parts.length →
          1 ≤ (parts.getD i (0, [])).1 ∧ (parts.getD i (0, [])).1 ≤ sizes.getD i 0)
    ∧ (∀ (group_fn : List α → List (List α)) (dfs : List (PdValue α)) (sizes : List Nat)
          (parts : List (Nat × List (List α))),
        (∀ s ∈ sizes, 1 ≤ s) → df_by_group group_fn dfs sizes = .ok parts →
        ∀ p ∈ parts, 1 ≤ p.1) := by
  constructor
  · intro dfs sizes parts hpos heq i hi
    cases sizes with
    | nil =>
      unfold df_by_row at heq
      split at heq
      · exact absurd heq (by simp)
      · rw [Except.ok.injEq] at heq
        subst heq
        simp at hi
    | cons s rest =>
      unfold df_by_row at heq
      split at heq
      · exact absurd heq (by simp)
      · rw [Except.ok.injEq] at heq
        subst heq
        exact df_by_row_go_bounds (dfs.map PdValue.rows) (dfs.headD .non_df).rows.length
          rest 0 s i (hpos s (List.mem_cons_self s rest))
          (fun x hx => hpos x (List.mem_cons_of_mem s hx)) hi
  · intro group_fn dfs sizes parts hpos heq p hp
    cases sizes with
    | nil =>
      unfold df_by_group at heq
      split at heq
      · exact absurd heq (by simp)
      · rw [Except.ok.injEq] at heq
        subst heq
        simp at hp
    | cons s rest =>
      unfold df_by_group at heq
      split at heq
      · exact absurd heq (by simp)
      · exact df_by_group_go_pos (zip_groups ((dfs.map PdValue.rows).map group_fn))
          ((dfs.map PdValue.rows).map (fun _ => [])) 0 s rest parts
          (hpos s (List.mem_cons_self s rest))
          (fun x hx => hpos x (List.mem_cons_of_mem s hx)) heq p hp

/-- Witness for the amended C1 at a concrete input: partitioning a
3-row dataframe with requested sizes 2, 2 yields a first partition of
size 2, within the bounds. -/
theorem c1_partition_size_bounds_witness :
    1 ≤ (([(2, [[1, 2]]), (1, [[3]])] : List (Nat × List (List Nat))).getD 0 (0, [])).1
    ∧ (([(2, [[1, 2]]), (1, [[3]])] : List (Nat × List (List Nat))).getD 0 (0, [])).1
        ≤ [2, 2].getD 0 0 :=
  c1_partition_size_bounds.1 [PdValue.df [1, 2, 3]] [2, 2] [(2, [[1, 2]]), (1, [[3]])]
    (by decide) rfl 0 (by decide)

/-- C4: for dataframes of `n` rows each and positive requested sizes (at
least `n` of them available, so the stream is driven to exhaustion),
`df_by_row` succeeds, the actual sizes sum to `n`, the payload row slices
concatenate in order to each original dataframe, and at least one
partition is yielded whenever `n ≥ 1`. -/
theorem c4_df_by_row_cover {α : Type} (dfs : List (PdValue α)) (n : Nat) (sizes : List Nat)
    (hne : dfs ≠ []) (hdf : ∀ d ∈ dfs, d.isDataFrame = true)
    (hrows : ∀ d ∈ dfs, d.rows.length = n)
    (hpos : ∀ s ∈ sizes, 1 ≤ s) (henough : n ≤ sizes.length) :
    ∃ parts, df_by_row dfs sizes = .ok parts
      ∧ (parts.map Prod.fst).sum = n
      ∧ (∀ j, j < dfs.length →
          (parts.map (fun p => p.2.getD j [])).flatten = (dfs.getD j PdValue.non_df).rows)
      ∧ (1 ≤ n → parts ≠ []) := by
  match dfs, hne with
  | d :: rest, _ =>
    have hval := validate_dfs_parameter_ok d rest n hdf hrows
    have hd : d.rows.length = n := hrows d (List.mem_cons_self d rest)
    cases sizes with
    | nil =>
      simp only [List.length_nil] at henough
      refine ⟨[], ?_, ?_, ?_, ?_⟩
      · unfold df_by_row
        rw [hval]
      · simp
        omega
      · intro j hjlt
        have hrlen : ((d :: rest).getD j PdValue.non_df).rows.length = n :=
          hrows _ (getD_mem (d :: rest) j hjlt)
        simp only [List.map_nil, List.flatten_nil]
        symm
        rw [← List.length_eq_zero]
        omega
      · intro h1
        exfalso
        omega
    | cons s rest2 =>
      have hs1 := hpos s (List.mem_cons_self s rest2)
      have hrest : ∀ x ∈ rest2, 1 ≤ x := fun x hx => hpos x (List.mem_cons_of_mem s hx)
      have hlen2 : d.rows.length - (0 + s) ≤ rest2.length := by
        simp only [List.length_cons] at henough
        omega
      have hsum := df_by_row_go_sum ((d :: rest).map PdValue.rows) d.rows.length rest2 0 s
        hs1 hrest hlen2
      refine ⟨df_by_row_go ((d :: rest).map PdValue.rows) d.rows.length 0 s rest2,
        ?_, ?_, ?_, ?_⟩
      · unfold df_by_row
        rw [hval]
        rfl
      · rw [hsum]
        omega
      · intro j hjlt
        have hjlt2 : j < ((d :: rest).map PdValue.rows).length := by simpa using hjlt
        have hfl := df_by_row_go_flatten ((d :: rest).map PdValue.rows) d.rows.length j
          hjlt2 rest2 0 s hs1 hrest hlen2
        rw [hfl, map_rows_getD (d :: rest) j hjlt]
        have hrlen : ((d :: rest).getD j PdValue.non_df).rows.length = n :=
          hrows _ (getD_mem (d :: rest) j hjlt)
        rw [List.drop_zero, List.take_of_length_le (by omega)]
      · intro h1 hemp
        rw [hemp] at hsum
        simp only [List.map_nil, List.sum_nil] at hsum
        omega

/-- Witness for C4: a 3-row and a matching 3-row dataframe, sizes
2, 2, 2; the partitions cover the input. -/
theorem c4_df_by_row_cover_witness :
    ∃ parts, df_by_row [PdValue.df [1, 2, 3], PdValue.df [4, 5, 6]] [2, 2, 2] = .ok parts
      ∧ (parts.map Prod.fst).sum = 3
      ∧ (∀ j, j < ([PdValue.df [1, 2, 3], PdValue.df [4, 5, 6]] : List (PdValue Nat)).length →
          (parts.map (fun p => p.2.getD j [])).flatten
            = (([PdValue.df [1, 2, 3], PdValue.df [4, 5, 6]] : List (PdValue Nat)).getD j
                PdValue.non_df).rows)
      ∧ (1 ≤ 3 → parts ≠ []) :=
  c4_df_by_row_cover [PdValue.df [1, 2, 3], PdValue.df [4, 5, 6]] 3 [2, 2, 2]
    (by decide) (by decide) (by decide) (by decide) (by decide)

/-- C7: when every requested size is the same `k ≥ 1`, every partition
yielded by `df_by_row` has actual size exactly `k` except possibly the
last one, whose size is at most `k`. -/
theorem c7_df_by_row_fixed_size {α : Type} (dfs : List (PdValue α)) (n k m : Nat)
    (hne : dfs ≠ []) (hdf : ∀ d ∈ dfs, d.isDataFrame = true)
    (hrows : ∀ d ∈ dfs, d.rows.length = n) (hk : 1 ≤ k) :
    ∃ parts, df_by_row dfs (List.replicate m k) = .ok parts
      ∧ (∀ i, i + 1 < parts.length → (parts.getD i (0, [])).1 = k)
      ∧ ∀ p ∈ parts, p.1 ≤ k := by
  match dfs, hne with
  | d :: rest, _ =>
    have hval := validate_dfs_parameter_ok d rest n hdf hrows
    cases m with
    | zero =>
      refine ⟨[], ?_, ?_, ?_⟩
      · unfold df_by_row
        rw [hval]
        rfl
      · intro i hi
        simp at hi
      · intro p hp
        simp at hp
    | succ m2 =>
      rw [List.replicate_succ]
      refine ⟨df_by_row_go ((d :: rest).map PdValue.rows) d.rows.length 0 k
          (List.replicate m2 k), ?_, ?_, ?_⟩
      · unfold df_by_row
        rw [hval]
        rfl
      · intro i hi
        exact df_by_row_go_fixed ((d :: rest).map PdValue.rows) d.rows.length k
          (List.replicate m2 k) 0 k i rfl (fun x hx => List.eq_of_mem_replicate hx) hi
      · intro p hp
        exact df_by_row_go_le ((d :: rest).map PdValue.rows) d.rows.length k
          (List.replicate m2 k) 0 k (le_refl k)
          (fun x hx => le_of_eq (List.eq_of_mem_replicate hx)) p hp

/-- Witness for C7: a 5-row dataframe with fixed size 2 yields sizes
2, 2, 1: all non-final partitions have size exactly 2 and all are at
most 2. -/
theorem c7_df_by_row_fixed_size_witness :
    ∃ parts, df_by_row [PdValue.df [1, 2, 3, 4, 5]] (List.replicate 3 2) = .ok parts
      ∧ (∀ i, i + 1 < parts.length → (parts.getD i (0, [])).1 = 2)
      ∧ ∀ p ∈ parts, p.1 ≤ 2 :=
  c7_df_by_row_fixed_size [PdValue.df [1, 2, 3, 4, 5]] 5 2 3
    (by decide) (by decide) (by decide) (by decide)

/-- C9: when a splitter precondition is violated — no dataframe at all,
a value that is not a dataframe, or two co-partitioned dataframes with
differing row counts — both `df_by_row` and the generator returned by
`df_by_group` raise the validation `ValueError` when primed, and the
resulting stream holds no partition. -/
theorem c9_invalid_input_errors {α : Type} (dfs : List (PdValue α)) (sizes : List Nat)
    (group_fn : List α → List (List α))
    (hbad : dfs = [] ∨ (∃ d ∈ dfs, d.isDataFrame = false)
      ∨ (∃ d ∈ dfs, ∃ d2 ∈ dfs, d.rows.length ≠ d2.rows.length)) :
    (∃ e, df_by_row dfs sizes = .error e)
    ∧ (∃ e, df_by_group group_fn dfs sizes = .error e) := by
  have hv : ∃ e, validate_dfs_parameter dfs = .error e := by
    cases dfs with
    | nil => exact ⟨_, rfl⟩
    | cons d rest =>
      unfold validate_dfs_parameter
      dsimp only
      split_ifs with h1 h2
      · exact ⟨_, rfl⟩
      · exact ⟨_, rfl⟩
      · exfalso
        rcases hbad with h | ⟨x, hx, hxf⟩ | ⟨x, hx, y, hy, hxy⟩
        · simp at h
        · rw [Bool.not_eq_true, List.any_eq_false] at h1
          exact h1 x hx (by rw [hxf]; rfl)
        · rw [Bool.not_eq_true, List.any_eq_false] at h2
          have hall : ∀ v ∈ rest, v.rows.length = d.rows.length := by
            intro v hv2
            have := h2 v hv2
            simpa using this
          have hx2 : x.rows.length = d.rows.length := by
            rcases List.mem_cons.mp hx with h | h
            · rw [h]
            · exact hall x h
          have hy2 : y.rows.length = d.rows.length := by
            rcases List.mem_cons.mp hy with h | h
            · rw [h]
            · exact hall y h
          exact hxy (hx2.trans hy2.symm)
  obtain ⟨e, he⟩ := hv
  constructor
  · refine ⟨e, ?_⟩
    unfold df_by_row
    rw [he]
  · refine ⟨e, ?_⟩
    unfold df_by_group
    rw [he]

/-- Witness for C9: the spec scenario of two co-partitioned inputs of 7
and 8 rows respectively; both generators error when primed. -/
theorem c9_invalid_input_errors_witness :
    (∃ e, df_by_row [PdValue.df (List.range 7), PdValue.df (List.range 8)] [3] = .error e)
    ∧ (∃ e, df_by_group (fun df => [df])
        [PdValue.df (List.range 7), PdValue.df (List.range 8)] [3] = .error e) :=
  c9_invalid_input_errors [PdValue.df (List.range 7), PdValue.df (List.range 8)] [3]
    (fun df => [df]) (by decide)

/-- C10: the deprecated partitioners are extensionally equal to their
replacements — `dfs_by_row` and `partition_dfs_by_chunk` produce the same
partition stream as `df_by_row`, and `dfs_by_group` the same as
`df_by_group` with the same grouping arguments; in the source they differ
only by a `logging.warning` call. -/
theorem c10_deprecated_aliases_extensionally_equal {α : Type} :
    (∀ (dfs : List (PdValue α)) (sizes : List Nat),
        dfs_by_row dfs sizes = df_by_row dfs sizes)
    ∧ (∀ (dfs : List (PdValue α)) (sizes : List Nat),
        partition_dfs_by_chunk dfs sizes = df_by_row dfs sizes)
    ∧ (∀ (group_fn : List α → List (List α)) (dfs : List (PdValue α)) (sizes : List Nat),
        dfs_by_group group_fn dfs sizes = df_by_group group_fn dfs sizes) :=
  ⟨fun _ _ => rfl, fun _ _ => rfl, fun _ _ _ => rfl⟩

end Parfun
